import Mathlib

/-!
# MASH-IoT firmware: verification of the sensing/safety core

Shallow embedding of the MASH-IoT Arduino firmware's sensing and safety
subsystems (`src/arduino_firmware/src/safety.cpp`, `sensors.cpp`,
`config.h`), together with proofs of the specified properties.

Machine integers are modelled as `Nat` with explicit reduction modulo
`2^32` (AVR `unsigned long`) or `2^8` (`uint8_t`) where overflow matters.
`float` fields are modelled as `ℚ`. `millis()` is passed in explicitly as
a `now : ℕ` parameter. Hardware effects (I2C transactions, pin writes,
delays) are modelled as explicit traces of operations.
-/

namespace MashIoT

/-- Modulus of AVR `unsigned long` (32-bit). -/
def ULONG_MOD : ℕ := 2 ^ 32

/-- Wrapping 32-bit subtraction `a - b` as computed on `unsigned long`:
`(a - b) mod 2^32`. -/
def wsub32 (a b : ℕ) : ℕ :=
  (a % ULONG_MOD + (ULONG_MOD - b % ULONG_MOD)) % ULONG_MOD

/-! ## Safety watchdog

Embedding of `SafetyWatchdog` from `safety.cpp`.  Fields mirror the
private members declared in `safety.h`.  Every member function that reads
`millis()` takes the current time `now` as an argument. -/

structure SafetyWatchdog where
  lastHeartbeat : ℕ
  timeout : ℕ
  isActive : Bool
  hasTriggered : Bool
  triggeredAt : ℕ
  recoveryCount : ℕ
  deriving Repr, DecidableEq

namespace SafetyWatchdog

/-- Constructor `SafetyWatchdog(timeoutMs)`. -/
def mk0 (timeoutMs : ℕ) : SafetyWatchdog :=
  { lastHeartbeat := 0, timeout := timeoutMs, isActive := false
    hasTriggered := false, triggeredAt := 0, recoveryCount := 0 }

/-- `SafetyWatchdog::begin()`: arm the watchdog at time `now`. -/
def begin (w : SafetyWatchdog) (now : ℕ) : SafetyWatchdog :=
  { w with lastHeartbeat := now, isActive := true, hasTriggered := false
           triggeredAt := 0, recoveryCount := 0 }

/-- `SafetyWatchdog::heartbeat()`: record a heartbeat at time `now`;
returns `true` iff a recovery (triggered → restored) occurred, together
with the updated state.  `recoveryCount++` is 32-bit arithmetic. -/
def heartbeat (w : SafetyWatchdog) (now : ℕ) : Bool × SafetyWatchdog :=
  let w1 := { w with lastHeartbeat := now }
  if w.hasTriggered then
    (true, { w1 with hasTriggered := false, triggeredAt := 0
                     recoveryCount := (w.recoveryCount + 1) % ULONG_MOD })
  else
    (false, w1)

/-- `SafetyWatchdog::checkTimeout()` at time `now`: returns `true` iff
the timeout fired on this call, together with the updated state. -/
def checkTimeout (w : SafetyWatchdog) (now : ℕ) : Bool × SafetyWatchdog :=
  if !w.isActive then (false, w)
  else
    let elapsed := wsub32 now w.lastHeartbeat
    if elapsed > w.timeout ∧ w.hasTriggered = false then
      (true, { w with hasTriggered := true, triggeredAt := now })
    else
      (false, w)

/-- `SafetyWatchdog::reset()` at time `now`. -/
def reset (w : SafetyWatchdog) (now : ℕ) : SafetyWatchdog :=
  { w with lastHeartbeat := now, hasTriggered := false, triggeredAt := 0 }

/-- `SafetyWatchdog::isSafe()`. -/
def isSafe (w : SafetyWatchdog) : Bool := !w.hasTriggered

end SafetyWatchdog

/-! ## Configuration constants (`config.h`) -/

/-- `TEMP_MIN` (°C). -/
def TEMP_MIN : ℚ := -10
/-- `TEMP_MAX` (°C). -/
def TEMP_MAX : ℚ := 60
/-- `HUMIDITY_MIN` (%). -/
def HUMIDITY_MIN : ℚ := 0
/-- `HUMIDITY_MAX` (%). -/
def HUMIDITY_MAX : ℚ := 100
/-- `CO2_MIN` (ppm). -/
def CO2_MIN : ℕ := 400
/-- `CO2_MAX` (ppm). -/
def CO2_MAX : ℕ := 5000
/-- `FILTER_SIZE`. -/
def FILTER_SIZE : ℕ := 5
/-- Modelled from the spec: the macro `I2C_RECOVERY_RETRIES` is used in
`sensors.cpp` but its defining header is not in the repository snapshot;
the spec fixes the consecutive-failure threshold at the design default 3
("triggers the Recovery Procedure upon reaching a configured threshold",
"design default 3"). -/
def I2C_RECOVERY_RETRIES : ℕ := 3

/-! ## Moving-average filter

Embedding of `MovingAverageFilter` from `sensors.cpp`.  The `float*`
ring buffer is a `List ℚ` of length `size`; `float` arithmetic is
modelled as exact rational arithmetic. -/

structure MovingAverageFilter where
  size : ℕ
  buffer : List ℚ
  index : ℕ
  count : ℕ
  sum : ℚ
  deriving Repr, DecidableEq

namespace MovingAverageFilter

/-- Constructor `MovingAverageFilter(filterSize)`: zeroed buffer of the
given capacity. -/
def mk0 (filterSize : ℕ) : MovingAverageFilter :=
  { size := filterSize, buffer := List.replicate filterSize 0
    index := 0, count := 0, sum := 0 }

/-- `MovingAverageFilter::add(value)`, state part.  The C++ function also
returns `getAverage()` of the updated state; the return value is
recovered as `(f.add v).getAverage`. -/
def add (f : MovingAverageFilter) (v : ℚ) : MovingAverageFilter :=
  { size := f.size
    buffer := f.buffer.set f.index v
    index := (f.index + 1) % f.size
    count := if f.count < f.size then f.count + 1 else f.count
    sum := f.sum - f.buffer.getD f.index 0 + v }

/-- `MovingAverageFilter::getAverage()`. -/
def getAverage (f : MovingAverageFilter) : ℚ :=
  if f.count = 0 then 0 else f.sum / (f.count : ℚ)

/-- `MovingAverageFilter::reset()`. -/
def reset (f : MovingAverageFilter) : MovingAverageFilter :=
  { f with index := 0, count := 0, sum := 0
           buffer := List.replicate f.size 0 }

/-- Feed a whole sequence of samples through `add`, first element
first. -/
def addAll (f : MovingAverageFilter) (xs : List ℚ) : MovingAverageFilter :=
  xs.foldl add f

/-- The value held in ring-buffer slot `j` after feeding the sample
sequence `xs` into a fresh filter of capacity `N`: the most recently
inserted value whose insertion position is congruent to `j` modulo `N`,
or `0` if slot `j` was never written. -/
def slotVal (N : ℕ) (xs : List ℚ) (j : ℕ) : ℚ :=
  if j < xs.length then xs.getD (j + N * ((xs.length - 1 - j) / N)) 0 else 0

end MovingAverageFilter

/-! ## Sensor manager

Embedding of `SensorManager` from `sensors.cpp`.  The mutable state
touched by `readSensor1` is the channel state (two filters and the
last-known-good reading) plus the file-scope `static uint8_t
i2cFailCount`.  The environment of one read attempt — whether the mux
select transaction succeeds, whether the Wire timeout flag is set, and
the values returned by `readMeasurement` — is an explicit input. -/

/-- `struct SensorReading` from `sensors.h`. -/
structure SensorReading where
  temperature : ℚ
  humidity : ℚ
  co2 : ℕ
  isValid : Bool
  timestamp : ℕ
  deriving Repr, DecidableEq

/-- Channel-1 state of `SensorManager` (the members used by
`readSensor1`). -/
structure SensorManagerState where
  tempFilter1 : MovingAverageFilter
  humidityFilter1 : MovingAverageFilter
  lastReading1 : SensorReading
  deriving Repr, DecidableEq

/-- `SensorManager::SensorManager()`: fresh filters of capacity
`FILTER_SIZE` and zero-initialized last reading `{0, 0, 0, false, 0}`. -/
def freshSensorManager : SensorManagerState :=
  { tempFilter1 := MovingAverageFilter.mk0 FILTER_SIZE
    humidityFilter1 := MovingAverageFilter.mk0 FILTER_SIZE
    lastReading1 := { temperature := 0, humidity := 0, co2 := 0
                      isValid := false, timestamp := 0 } }

/-- `SensorManager::validateReading(temp, humidity, co2)`. -/
def validateReading (temp humidity : ℚ) (co2 : ℕ) : Bool :=
  if temp < TEMP_MIN ∨ temp > TEMP_MAX then false
  else if humidity < HUMIDITY_MIN ∨ humidity > HUMIDITY_MAX then false
  else if co2 < CO2_MIN ∨ co2 > CO2_MAX then false
  else true

/-- Environment of one `readSensor1` attempt: the mux select fails, or
the Wire timeout flag is found set after `readMeasurement`, or
`readMeasurement` yields `(error, co2, temp, humidity)`. -/
inductive ReadAttempt where
  | muxFail
  | wireTimeout
  | measurement (error : ℕ) (co2 : ℕ) (temp humidity : ℚ)
  deriving Repr, DecidableEq

/-- Result of one `readSensor1` call: the returned `SensorReading`, the
updated channel state, the updated `i2cFailCount`, and whether
`recoverI2CBus()` was invoked during the call. -/
structure ReadOutcome where
  reading : SensorReading
  state : SensorManagerState
  failCount : ℕ
  recoveryInvoked : Bool
  deriving Repr, DecidableEq

/-- Shared failure bookkeeping on the mux-fail and wire-timeout paths of
`readSensor1`: `i2cFailCount++` (8-bit), recovery at the threshold, then
reset to 0. -/
def bumpFailCount (fc : ℕ) : ℕ × Bool :=
  let fc1 := (fc + 1) % 2 ^ 8
  if fc1 ≥ I2C_RECOVERY_RETRIES then (0, true) else (fc1, false)

/-- `SensorManager::readSensor1()` at time `now` with attempt
environment `att`, from channel state `s` and failure counter `fc`.  On
the success path the returned reading (filtered temperature/humidity,
raw CO2, `isValid = true`) is also stored as the new
`lastReading1`. -/
def readSensor1 : SensorManagerState → ℕ → ℕ → ReadAttempt → ReadOutcome
  | s, fc, _, .muxFail =>
      { reading := s.lastReading1, state := s
        failCount := (bumpFailCount fc).1
        recoveryInvoked := (bumpFailCount fc).2 }
  | s, fc, _, .wireTimeout =>
      { reading := s.lastReading1, state := s
        failCount := (bumpFailCount fc).1
        recoveryInvoked := (bumpFailCount fc).2 }
  | s, fc, now, .measurement error co2 temp humidity =>
      if error ≠ 0 ∨ co2 = 0 then
        { reading := s.lastReading1, state := s, failCount := fc
          recoveryInvoked := false }
      else if validateReading temp humidity co2 = false then
        { reading := s.lastReading1, state := s, failCount := fc
          recoveryInvoked := false }
      else
        { reading := { temperature := (s.tempFilter1.add temp).getAverage
                       humidity := (s.humidityFilter1.add humidity).getAverage
                       co2 := co2, isValid := true, timestamp := now }
          state := { tempFilter1 := s.tempFilter1.add temp
                     humidityFilter1 := s.humidityFilter1.add humidity
                     lastReading1 :=
                       { temperature := (s.tempFilter1.add temp).getAverage
                         humidity := (s.humidityFilter1.add humidity).getAverage
                         co2 := co2, isValid := true, timestamp := now } }
          failCount := 0, recoveryInvoked := false }

/-- A read attempt that fails: mux-select failure, bus timeout, device
error code, zero reported gas concentration, or out-of-range values. -/
def attemptFails (att : ReadAttempt) : Bool :=
  match att with
  | .muxFail => true
  | .wireTimeout => true
  | .measurement error co2 temp humidity =>
      decide (error ≠ 0) || decide (co2 = 0)
        || !(validateReading temp humidity co2)

/-! ## Multiplexer channel selection

Embedding of `SensorManager::selectMuxChannel` from `sensors.cpp`, with
the I2C transactions it performs recorded as an explicit trace.  The
outcome of `Wire.endTransmission()` is an environment input
`endTxStatus` (0 = success). -/

/-- `MUX_I2C_ADDRESS`. -/
def MUX_I2C_ADDRESS : ℕ := 0x70

/-- One bus-level operation performed by `selectMuxChannel`. -/
inductive BusOp where
  | beginTx (addr : ℕ)
  | writeByte (b : ℕ)
  | endTx
  | delayMs (ms : ℕ)
  deriving Repr, DecidableEq

/-- `SensorManager::selectMuxChannel(channel)`: returns the success flag
together with the trace of bus operations performed.  `channel` is a
`uint8_t`; `Wire.write` truncates its argument to 8 bits. -/
def selectMuxChannel (channel : ℕ) (endTxStatus : ℕ) : Bool × List BusOp :=
  if channel > 7 then (false, [])
  else
    let ops := [BusOp.beginTx MUX_I2C_ADDRESS,
                BusOp.writeByte ((1 <<< channel) % 2 ^ 8), BusOp.endTx]
    if endTxStatus ≠ 0 then (false, ops)
    else (true, ops ++ [BusOp.delayMs 5])

/-! ## I2C bus recovery

Embedding of `recoverI2CBus` from `sensors.cpp` as a trace of hardware
operations.  The level read back from the SDA line after the `i`-th
clock pulse is the environment input `sda i`. -/

/-- `HARDWARE_SDA_PIN` (`A4`, digital pin 18 on the Uno). -/
def HARDWARE_SDA_PIN : ℕ := 18
/-- `HARDWARE_SCL_PIN` (`A5`, digital pin 19 on the Uno). -/
def HARDWARE_SCL_PIN : ℕ := 19

/-- Pin modes used by `recoverI2CBus`. -/
inductive PinMode where
  | output
  | inputPullup
  deriving Repr, DecidableEq

/-- One hardware-level operation performed by `recoverI2CBus`. -/
inductive HwOp where
  | wireEnd
  | setPinMode (pin : ℕ) (mode : PinMode)
  | digWrite (pin : ℕ) (level : Bool)
  | digRead (pin : ℕ)
  | delayUs (us : ℕ)
  | wireBegin
  | setWireTimeout
  | delayMs (ms : ℕ)
  deriving Repr, DecidableEq

/-- The body of one iteration of the SCL-toggle loop in `recoverI2CBus`:
drive SCL low, wait, drive SCL high, wait, read SDA. -/
def sclPulseBlock : List HwOp :=
  [HwOp.digWrite HARDWARE_SCL_PIN false, HwOp.delayUs 5,
   HwOp.digWrite HARDWARE_SCL_PIN true, HwOp.delayUs 5,
   HwOp.digRead HARDWARE_SDA_PIN]

/-- The SCL-toggle loop of `recoverI2CBus` from iteration `i` with
`fuel` iterations remaining: each iteration emits one `sclPulseBlock`
and the loop breaks as soon as the SDA read comes back high. -/
def sclPulsesFrom (sda : ℕ → Bool) (i fuel : ℕ) : List HwOp :=
  match fuel with
  | 0 => []
  | fuel' + 1 =>
      sclPulseBlock ++ (if sda i then [] else sclPulsesFrom sda (i + 1) fuel')

/-- `recoverI2CBus()`: the full trace of hardware operations, given the
SDA levels `sda` observed after each clock pulse. -/
def recoverI2CBus (sda : ℕ → Bool) : List HwOp :=
  [HwOp.wireEnd,
   HwOp.setPinMode HARDWARE_SCL_PIN PinMode.output,
   HwOp.setPinMode HARDWARE_SDA_PIN PinMode.inputPullup] ++
  sclPulsesFrom sda 0 9 ++
  [HwOp.setPinMode HARDWARE_SDA_PIN PinMode.output,
   HwOp.digWrite HARDWARE_SDA_PIN false, HwOp.delayUs 5,
   HwOp.digWrite HARDWARE_SCL_PIN true, HwOp.delayUs 5,
   HwOp.digWrite HARDWARE_SDA_PIN true, HwOp.delayUs 5,
   HwOp.wireBegin, HwOp.setWireTimeout, HwOp.delayMs 100]

/-- Number of clock pulses the SCL-toggle loop performs, starting at
iteration `i` with `fuel` iterations remaining. -/
def sclPulseCount (sda : ℕ → Bool) (i fuel : ℕ) : ℕ :=
  match fuel with
  | 0 => 0
  | fuel' + 1 => if sda i then 1 else sclPulseCount sda (i + 1) fuel' + 1

/-! ## Wrapping arithmetic -/

/-- For in-range operands with `b ≤ a`, wrapping subtraction is plain
subtraction. -/
theorem wsub32_of_le (a b : ℕ) (ha : a < ULONG_MOD) (hb : b ≤ a) :
    wsub32 a b = a - b := by
  have hbm : b < ULONG_MOD := lt_of_le_of_lt hb ha
  unfold wsub32
  rw [Nat.mod_eq_of_lt ha, Nat.mod_eq_of_lt hbm]
  have h1 : a + (ULONG_MOD - b) = (a - b) + ULONG_MOD := by omega
  rw [h1, Nat.add_mod_right, Nat.mod_eq_of_lt (by omega)]

/-! ## Moving-average filter: ring-buffer characterization -/

namespace MovingAverageFilter

lemma div_pred_of_not_dvd {N d : ℕ} (hd : 1 ≤ d) (hnd : ¬ N ∣ d) :
    d / N = (d - 1) / N := by
  obtain ⟨d', rfl⟩ : ∃ d', d = d' + 1 := ⟨d - 1, by omega⟩
  rw [Nat.succ_div]
  simp [hnd]

lemma last_write_full {N len : ℕ} (hN : 0 < N) (h : N ≤ len) :
    len % N + N * ((len - 1 - len % N) / N) = len - N := by
  have hq : 1 ≤ len / N := (Nat.one_le_div_iff hN).mpr h
  have hdm : N * (len / N) + len % N = len := Nat.div_add_mod len N
  have hwN : len % N < N := Nat.mod_lt _ hN
  obtain ⟨q', hq'⟩ : ∃ q', len / N = q' + 1 := ⟨len / N - 1, by omega⟩
  rw [hq'] at hdm
  have hdm' : N * q' + N + len % N = len := by
    rw [Nat.mul_add, Nat.mul_one] at hdm; omega
  have h1 : len - 1 - len % N = (N - 1) + N * q' := by omega
  rw [h1, Nat.add_mul_div_left _ _ hN, Nat.div_eq_of_lt (by omega : N - 1 < N)]
  rw [Nat.zero_add]
  omega

lemma slotVal_concat_write {N : ℕ} (hN : 0 < N) (xs : List ℚ) (x : ℚ) :
    slotVal N (xs ++ [x]) (xs.length % N) = x := by
  have hw : xs.length % N ≤ xs.length := Nat.mod_le _ _
  have hpos : xs.length % N + N * ((xs.length + 1 - 1 - xs.length % N) / N)
      = xs.length := by
    have h1 : xs.length + 1 - 1 - xs.length % N = N * (xs.length / N) := by
      have := Nat.div_add_mod xs.length N; omega
    rw [h1, Nat.mul_div_cancel_left _ hN]
    have := Nat.div_add_mod xs.length N; omega
  unfold slotVal
  simp only [List.length_append, List.length_singleton]
  rw [if_pos (by omega), hpos, List.getD_append_right _ _ _ _ (le_refl _)]
  simp

lemma slotVal_concat_other {N : ℕ} (xs : List ℚ) (x : ℚ)
    (j : ℕ) (hj : j < N) (hne : j ≠ xs.length % N) :
    slotVal N (xs ++ [x]) j = slotVal N xs j := by
  unfold slotVal
  simp only [List.length_append, List.length_singleton]
  by_cases hlt : j < xs.length
  · rw [if_pos (by omega), if_pos hlt]
    have hnd : ¬ N ∣ (xs.length - j) := by
      rintro ⟨q, hq⟩
      apply hne
      have h1 : xs.length = j + N * q := by omega
      rw [h1, Nat.add_mul_mod_self_left, Nat.mod_eq_of_lt hj]
    have hdiv : (xs.length + 1 - 1 - j) / N = (xs.length - 1 - j) / N := by
      have h1 : xs.length + 1 - 1 - j = xs.length - j := by omega
      have h2 : xs.length - 1 - j = (xs.length - j) - 1 := by omega
      rw [h1, h2]
      exact div_pred_of_not_dvd (by omega) hnd
    rw [hdiv]
    have hple : j + N * ((xs.length - 1 - j) / N) < xs.length := by
      have := Nat.div_mul_le_self (xs.length - 1 - j) N
      have h3 : N * ((xs.length - 1 - j) / N) ≤ xs.length - 1 - j := by
        rw [Nat.mul_comm]; exact Nat.div_mul_le_self _ _
      omega
    exact List.getD_append _ _ _ _ hple
  · rw [if_neg hlt]
    by_cases hj1 : j < xs.length + 1
    · exfalso
      have hj' : j = xs.length := by omega
      exact hne (by rw [hj', Nat.mod_eq_of_lt (by omega)])
    · rw [if_neg hj1]

lemma sum_set_sub (l : List ℚ) (i : ℕ) (a : ℚ) (h : i < l.length) :
    (l.set i a).sum = l.sum - l.getD i 0 + a := by
  induction l generalizing i with
  | nil => simp at h
  | cons y ys ih =>
    cases i with
    | zero => simp; ring
    | succ n =>
      simp only [List.set_cons_succ, List.sum_cons, List.getD_cons_succ]
      rw [ih n (by simpa using h)]
      ring

lemma getD_set_self (l : List ℚ) (i : ℕ) (a : ℚ) (h : i < l.length) :
    (l.set i a).getD i 0 = a := by
  rw [List.getD_eq_getElem _ _ (by simpa using h)]
  exact List.getElem_set_self _

lemma getD_set_other (l : List ℚ) (i j : ℕ) (a : ℚ) (hne : i ≠ j) :
    (l.set i a).getD j 0 = l.getD j 0 := by
  by_cases hj : j < l.length
  · rw [List.getD_eq_getElem _ _ (by simpa using hj), List.getD_eq_getElem _ _ hj]
    exact List.getElem_set_ne hne _
  · rw [List.getD_eq_default _ _ (by simpa using hj),
        List.getD_eq_default _ _ (by omega)]

lemma drop_concat (xs : List ℚ) (x : ℚ) (k : ℕ) (h : k ≤ xs.length) :
    (xs ++ [x]).drop k = xs.drop k ++ [x] := by
  induction xs generalizing k with
  | nil =>
      have : k = 0 := by simpa using h
      subst this; simp
  | cons y ys ih =>
    cases k with
    | zero => simp
    | succ n =>
      simp only [List.cons_append, List.drop_succ_cons]
      exact ih n (by simpa using h)

/-- State characterization: feeding the sequence `xs` into a fresh
filter of capacity `N ≥ 1` yields the expected capacity, cursor, fill
count, per-slot contents, and running sum (the sum of the most recent
`min N xs.length` samples). -/
theorem addAll_inv {N : ℕ} (hN : 0 < N) (xs : List ℚ) :
    ((mk0 N).addAll xs).size = N ∧
    ((mk0 N).addAll xs).buffer.length = N ∧
    ((mk0 N).addAll xs).index = xs.length % N ∧
    ((mk0 N).addAll xs).count = min xs.length N ∧
    (∀ j, j < N → ((mk0 N).addAll xs).buffer.getD j 0 = slotVal N xs j) ∧
    ((mk0 N).addAll xs).sum = (xs.drop (xs.length - N)).sum := by
  induction xs using List.reverseRecOn with
  | nil =>
      refine ⟨rfl, by simp [addAll, mk0], by simp [addAll, mk0],
              by simp [addAll, mk0], ?_, by simp [addAll, mk0]⟩
      intro j hj
      simp [addAll, mk0, slotVal, List.getD_eq_getElem?_getD,
            List.getElem?_replicate]
      split <;> simp
  | append_singleton xs x ih =>
      obtain ⟨hsize, hlen, hidx, hcnt, hslot, hsum⟩ := ih
      have hAdd : (mk0 N).addAll (xs ++ [x]) = ((mk0 N).addAll xs).add x := by
        simp [addAll]
      have hwN : xs.length % N < N := Nat.mod_lt _ hN
      set f := (mk0 N).addAll xs with hf
      rw [hAdd, show (xs ++ [x]).length = xs.length + 1 from by simp]
      refine ⟨by simp [add, hsize], ?_, ?_, ?_, ?_, ?_⟩
      · show (f.buffer.set f.index x).length = N
        rw [List.length_set, hlen]
      · show (f.index + 1) % f.size = (xs.length + 1) % N
        rw [hidx, hsize, Nat.mod_add_mod]
      · show (if f.count < f.size then f.count + 1 else f.count)
              = min (xs.length + 1) N
        rw [hcnt, hsize]
        split <;> omega
      · intro j hj
        show (f.buffer.set f.index x).getD j 0 = slotVal N (xs ++ [x]) j
        rw [hidx]
        by_cases hjw : j = xs.length % N
        · subst hjw
          rw [getD_set_self _ _ _ (by rw [hlen]; exact hwN)]
          rw [slotVal_concat_write hN]
        · rw [getD_set_other _ _ _ _ (Ne.symm hjw), hslot j hj,
              slotVal_concat_other xs x j hj hjw]
      · show f.sum - f.buffer.getD f.index 0 + x
              = ((xs ++ [x]).drop (xs.length + 1 - N)).sum
        rw [hidx, hslot _ hwN, hsum]
        by_cases hcase : N ≤ xs.length
        · have hww : xs.length % N < xs.length := by omega
          have hsv : slotVal N xs (xs.length % N) = xs.getD (xs.length - N) 0 := by
            unfold slotVal
            rw [if_pos hww, last_write_full hN hcase]
          have hdropeq : xs.drop (xs.length - N)
              = xs.getD (xs.length - N) 0 :: xs.drop (xs.length - N + 1) := by
            have hb : xs.length - N < xs.length := by omega
            rw [List.getD_eq_getElem _ _ hb]
            exact List.drop_eq_getElem_cons hb
          have hd2 : (xs ++ [x]).drop (xs.length + 1 - N)
              = xs.drop (xs.length - N + 1) ++ [x] := by
            have h1 : xs.length + 1 - N = xs.length - N + 1 := by omega
            rw [h1, drop_concat _ _ _ (by omega)]
          rw [hsv, hdropeq, hd2]
          simp only [List.sum_append, List.sum_cons, List.sum_singleton,
                     List.sum_nil]
          ring
        · have hsv : slotVal N xs (xs.length % N) = 0 := by
            unfold slotVal
            rw [Nat.mod_eq_of_lt (by omega)]
            simp
          have h1 : xs.length - N = 0 := by omega
          have h2 : xs.length + 1 - N = 0 := by omega
          rw [hsv, h1, h2]
          simp [List.sum_append]


/-- After any sample sequence, the running sum equals the sum of the
buffer slots (unoccupied slots hold `0`). -/
theorem addAll_sum_buffer {N : ℕ} (hN : 0 < N) (xs : List ℚ) :
    ((mk0 N).addAll xs).sum = ((mk0 N).addAll xs).buffer.sum := by
  induction xs using List.reverseRecOn with
  | nil => simp [addAll, mk0]
  | append_singleton xs x ih =>
      have hlen := (addAll_inv hN xs).2.1
      have hidx := (addAll_inv hN xs).2.2.1
      have hwN : xs.length % N < N := Nat.mod_lt _ hN
      rw [show (mk0 N).addAll (xs ++ [x]) = ((mk0 N).addAll xs).add x from by
        simp [addAll]]
      set f := (mk0 N).addAll xs
      show f.sum - f.buffer.getD f.index 0 + x = (f.buffer.set f.index x).sum
      rw [sum_set_sub _ _ _ (by rw [hlen]; rw [hidx]; exact hwN), ih]

/-- The average after feeding `xs` into a fresh filter of capacity `N`:
`0` for the empty sequence, and otherwise the mean of the most recent
`min N xs.length` samples. -/
theorem addAll_getAverage {N : ℕ} (hN : 0 < N) (xs : List ℚ) :
    ((mk0 N).addAll xs).getAverage
      = if xs.length = 0 then 0
        else (xs.drop (xs.length - N)).sum / ((min xs.length N : ℕ) : ℚ) := by
  have hcnt := (addAll_inv hN xs).2.2.2.1
  have hsum := (addAll_inv hN xs).2.2.2.2.2
  unfold getAverage
  rw [hcnt, hsum]
  by_cases hx : xs.length = 0
  · rw [if_pos (by omega), if_pos hx]
  · rw [if_neg (by omega), if_neg hx]

end MovingAverageFilter

/-- Range validation accepts exactly the closed product interval. -/
lemma validateReading_iff (t h : ℚ) (c : ℕ) :
    validateReading t h c = true ↔
      (-10 ≤ t ∧ t ≤ 60 ∧ 0 ≤ h ∧ h ≤ 100 ∧ 400 ≤ c ∧ c ≤ 5000) := by
  unfold validateReading TEMP_MIN TEMP_MAX HUMIDITY_MIN HUMIDITY_MAX CO2_MIN CO2_MAX
  split_ifs with h1 h2 h3
  · simp only [Bool.false_eq_true, false_iff]
    rintro ⟨g1, g2, g3, g4, g5, g6⟩
    rcases h1 with hx | hx <;> linarith
  · simp only [Bool.false_eq_true, false_iff]
    rintro ⟨g1, g2, g3, g4, g5, g6⟩
    rcases h2 with hx | hx <;> linarith
  · simp only [Bool.false_eq_true, false_iff]
    rintro ⟨g1, g2, g3, g4, g5, g6⟩
    rcases h3 with hx | hx <;> omega
  · simp only [true_iff]
    push_neg at h1 h2 h3
    exact ⟨h1.1, h1.2, h2.1, h2.2, by omega, by omega⟩

/-! ## Claims -/

/-- **C1**: Watchdog timeout detection is edge-triggered: for every armed
watchdog state, `checkTimeout()` returns true exactly when
`elapsed = now - lastHeartbeat` exceeds the timeout and the triggered
flag is not yet set (setting the flag and recording `triggeredAt = now`);
every repeated call while still triggered, and every call while
`elapsed ≤ timeout`, returns false.  Concretely, with timeout 1000 and
`begin()` at t=0, `checkTimeout()` at t=500 is false, at t=1500 true, and
at t=2000 with no intervening heartbeat false. -/
theorem claim_C1 (w : SafetyWatchdog) (now : ℕ) (hA : w.isActive = true) :
    ((w.checkTimeout now).1 = true ↔
        (wsub32 now w.lastHeartbeat > w.timeout ∧ w.hasTriggered = false)) ∧
    (wsub32 now w.lastHeartbeat > w.timeout → w.hasTriggered = false →
        w.checkTimeout now
          = (true, { w with hasTriggered := true, triggeredAt := now })) ∧
    (w.hasTriggered = true → w.checkTimeout now = (false, w)) ∧
    (wsub32 now w.lastHeartbeat ≤ w.timeout → w.checkTimeout now = (false, w)) ∧
    (let w0 := (SafetyWatchdog.mk0 1000).begin 0
     (w0.checkTimeout 500).1 = false ∧ (w0.checkTimeout 500).2 = w0 ∧
     (w0.checkTimeout 1500).1 = true ∧
     (((w0.checkTimeout 1500).2).checkTimeout 2000).1 = false) := by
  refine ⟨?_, ?_, ?_, ?_, by decide⟩
  · simp only [SafetyWatchdog.checkTimeout, hA, Bool.not_true, Bool.false_eq_true,
               if_false]
    split
    · simpa using ‹_›
    · exact iff_of_false (by simp) ‹_›
  · intro h1 h2
    simp [SafetyWatchdog.checkTimeout, hA, h1, h2]
  · intro h
    simp [SafetyWatchdog.checkTimeout, hA, h]
  · intro h
    simp only [SafetyWatchdog.checkTimeout, hA, Bool.not_true, Bool.false_eq_true,
               if_false]
    rw [if_neg (by omega)]

/-- Witness for C1 at a concrete armed state: watchdog armed at t=0 with
timeout 1000 fires at t=1500, setting the triggered flag and
`triggeredAt = 1500`. -/
theorem claim_C1_witness :
    ((SafetyWatchdog.mk0 1000).begin 0).checkTimeout 1500
      = (true, { lastHeartbeat := 0, timeout := 1000, isActive := true
                 hasTriggered := true, triggeredAt := 1500
                 recoveryCount := 0 }) :=
  (claim_C1 ((SafetyWatchdog.mk0 1000).begin 0) 1500 rfl).2.1
    (by decide) rfl

/-- **C4**: `heartbeat()` always updates `lastHeartbeat` to the current
time; if called while the triggered flag is set it clears the flag and
`triggeredAt`, increments `recoveryCount` by exactly 1, and returns true;
if called while not triggered it performs no state transition other than
updating `lastHeartbeat` and returns false.  After one trigger, exactly
one subsequent `heartbeat()` call returns the recovery signal, and
`recoveryCount` increases by exactly 1 per triggered→restored
transition. -/
theorem claim_C4 (w : SafetyWatchdog) (now now2 : ℕ) :
    ((w.heartbeat now).2.lastHeartbeat = now) ∧
    (w.hasTriggered = true →
       w.heartbeat now
         = (true, { w with lastHeartbeat := now, hasTriggered := false
                           triggeredAt := 0
                           recoveryCount := (w.recoveryCount + 1) % ULONG_MOD })) ∧
    (w.hasTriggered = true → w.recoveryCount + 1 < ULONG_MOD →
       (w.heartbeat now).2.recoveryCount = w.recoveryCount + 1) ∧
    (w.hasTriggered = false →
       w.heartbeat now = (false, { w with lastHeartbeat := now })) ∧
    (w.hasTriggered = true →
       (((w.heartbeat now).2).heartbeat now2).1 = false ∧
       (((w.heartbeat now).2).heartbeat now2).2.recoveryCount
         = (w.recoveryCount + 1) % ULONG_MOD) := by
  refine ⟨?_, ?_, ?_, ?_, ?_⟩
  · by_cases h : w.hasTriggered <;> simp [SafetyWatchdog.heartbeat, h]
  · intro h; simp [SafetyWatchdog.heartbeat, h]
  · intro h hlt
    simp [SafetyWatchdog.heartbeat, h, Nat.mod_eq_of_lt hlt]
  · intro h; simp [SafetyWatchdog.heartbeat, h]
  · intro h
    simp [SafetyWatchdog.heartbeat, h]

/-- Witness for C4: a triggered watchdog recovering at t=2100 returns
the recovery signal and `recoveryCount` becomes 1; a second heartbeat
returns no recovery and leaves the count at 1. -/
theorem claim_C4_witness :
    (((((SafetyWatchdog.mk0 1000).begin 0).checkTimeout 1500).2).heartbeat 2100).1
        = true ∧
    (((((SafetyWatchdog.mk0 1000).begin 0).checkTimeout 1500).2).heartbeat 2100).2.recoveryCount
        = 1 := by
  have h := claim_C4 ((((SafetyWatchdog.mk0 1000).begin 0).checkTimeout 1500).2)
    2100 2200
  refine ⟨?_, ?_⟩
  · rw [h.2.1 (by decide)]
  · exact h.2.2.1 (by decide) (by decide)

/-- **C9** (implicit): `reset()` sets `lastHeartbeat` to the current time
and clears the triggered flag and `triggeredAt`, but leaves
`recoveryCount`, the timeout value and the active flag unchanged — so
clearing a triggered episode via `reset()` is never counted in
`recoveryCount` and produces no recovery signal, unlike clearing it via
`heartbeat()`. -/
theorem claim_C9 (w : SafetyWatchdog) (now now2 : ℕ) :
    (w.reset now).recoveryCount = w.recoveryCount ∧
    (w.reset now).timeout = w.timeout ∧
    (w.reset now).isActive = w.isActive ∧
    (w.reset now).lastHeartbeat = now ∧
    (w.reset now).hasTriggered = false ∧
    (w.reset now).triggeredAt = 0 ∧
    ((w.reset now).heartbeat now2).1 = false ∧
    ((w.reset now).heartbeat now2).2.recoveryCount = w.recoveryCount := by
  refine ⟨rfl, rfl, rfl, rfl, rfl, rfl, ?_, ?_⟩ <;>
    simp [SafetyWatchdog.reset, SafetyWatchdog.heartbeat]

/-- **C6**: range validation accepts a sample iff temperature is in the
closed interval `[-10, 60]`, humidity in `[0, 100]` and gas concentration
in `[400, 5000]`; the endpoints themselves are accepted and values
strictly outside (such as `-10.01` and `60.01`) are rejected. -/
theorem claim_C6 (t h : ℚ) (c : ℕ) :
    (validateReading t h c = true ↔
        (-10 ≤ t ∧ t ≤ 60 ∧ 0 ≤ h ∧ h ≤ 100 ∧ 400 ≤ c ∧ c ≤ 5000)) ∧
    validateReading (-10) 50 1000 = true ∧
    validateReading 60 50 1000 = true ∧
    validateReading (-1001/100) 50 1000 = false ∧
    validateReading (6001/100) 50 1000 = false ∧
    validateReading 20 0 1000 = true ∧
    validateReading 20 100 1000 = true ∧
    validateReading 20 (-1/100) 1000 = false ∧
    validateReading 20 (10001/100) 1000 = false ∧
    validateReading 20 50 400 = true ∧
    validateReading 20 50 5000 = true ∧
    validateReading 20 50 399 = false ∧
    validateReading 20 50 5001 = false := by
  refine ⟨validateReading_iff t h c,
          (validateReading_iff _ _ _).mpr (by norm_num),
          (validateReading_iff _ _ _).mpr (by norm_num),
          by rw [Bool.eq_false_iff, ne_eq, validateReading_iff]; norm_num,
          by rw [Bool.eq_false_iff, ne_eq, validateReading_iff]; norm_num,
          (validateReading_iff _ _ _).mpr (by norm_num),
          (validateReading_iff _ _ _).mpr (by norm_num),
          by rw [Bool.eq_false_iff, ne_eq, validateReading_iff]; norm_num,
          by rw [Bool.eq_false_iff, ne_eq, validateReading_iff]; norm_num,
          (validateReading_iff _ _ _).mpr (by norm_num),
          (validateReading_iff _ _ _).mpr (by norm_num),
          by rw [Bool.eq_false_iff, ne_eq, validateReading_iff]; norm_num,
          by rw [Bool.eq_false_iff, ne_eq, validateReading_iff]; norm_num⟩

/-- **C7**: `selectMuxChannel(ch)` with `ch > 7` returns false
immediately without performing any bus operation; for `ch ≤ 7` it begins
a transmission to the fixed mux address `0x70`, writes the single-bit
frame `1 << ch`, and returns true iff the transmission succeeds
(status 0), delaying 5 ms after a successful switch. -/
theorem claim_C7 (ch s : ℕ) :
    (ch < 2 ^ 8 → ch > 7 → selectMuxChannel ch s = (false, [])) ∧
    (ch ≤ 7 →
       (s = 0 → selectMuxChannel ch s
          = (true, [BusOp.beginTx 0x70, BusOp.writeByte (2 ^ ch),
                    BusOp.endTx, BusOp.delayMs 5])) ∧
       (s ≠ 0 → selectMuxChannel ch s
          = (false, [BusOp.beginTx 0x70, BusOp.writeByte (2 ^ ch),
                     BusOp.endTx]))) := by
  refine ⟨?_, ?_⟩
  · intro _ hgt
    simp [selectMuxChannel, hgt]
  · intro hle
    have hsh : (1 <<< ch) % 256 = 2 ^ ch := by
      rw [Nat.one_shiftLeft]
      have hp : 2 ^ ch ≤ 2 ^ 7 := Nat.pow_le_pow_right (by omega) hle
      exact Nat.mod_eq_of_lt (by omega)
    constructor
    · intro hs
      simp [selectMuxChannel, MUX_I2C_ADDRESS, Nat.not_lt.mpr hle, hs, hsh]
    · intro hs
      simp [selectMuxChannel, MUX_I2C_ADDRESS, Nat.not_lt.mpr hle, hs, hsh]

/-- Witness for C7: channel 9 fails with an empty bus trace; channel 1
with a successful transmission selects frame `0b10` and delays 5 ms. -/
theorem claim_C7_witness :
    selectMuxChannel 9 0 = (false, []) ∧
    selectMuxChannel 1 0
      = (true, [BusOp.beginTx 0x70, BusOp.writeByte 2, BusOp.endTx,
                BusOp.delayMs 5]) :=
  ⟨(claim_C7 9 0).1 (by omega) (by omega),
   (claim_C7 1 0).2 (by omega) |>.1 rfl⟩

/-- On every failing attempt, `readSensor1` returns the stored
last-known-good reading and leaves the channel state unchanged. -/
lemma readSensor1_fails (s : SensorManagerState) (fc now : ℕ)
    (att : ReadAttempt) (hf : attemptFails att = true) :
    (readSensor1 s fc now att).reading = s.lastReading1 ∧
    (readSensor1 s fc now att).state = s := by
  cases att with
  | muxFail => exact ⟨rfl, rfl⟩
  | wireTimeout => exact ⟨rfl, rfl⟩
  | measurement e c t h =>
      simp only [readSensor1]
      split_ifs with h1 h2
      · exact ⟨rfl, rfl⟩
      · exact ⟨rfl, rfl⟩
      · exfalso
        simp only [attemptFails, Bool.or_eq_true, decide_eq_true_eq,
                   Bool.not_eq_true'] at hf
        push_neg at h1
        rcases hf with (hf | hf) | hf
        · exact hf h1.1
        · exact h1.2 hf
        · exact h2 hf

/-- **C2**: acquisition fallback: for every channel state, any read
attempt that fails (mux-select failure, bus timeout, device error code,
zero reported gas concentration, or out-of-range field) returns a
Reading identical to the stored last-known-good Reading; for a fresh
channel with no prior successful read the returned Reading has
`valid = false` (the zero-initialized Reading); and a read returning
concentration 0 is handled identically to a device error. -/
theorem claim_C2 (s : SensorManagerState) (fc now : ℕ) (att : ReadAttempt)
    (e c : ℕ) (t h : ℚ) :
    (attemptFails att = true →
       (readSensor1 s fc now att).reading = s.lastReading1) ∧
    (freshSensorManager.lastReading1
       = { temperature := 0, humidity := 0, co2 := 0, isValid := false
           timestamp := 0 }) ∧
    (attemptFails att = true →
       (readSensor1 freshSensorManager fc now att).reading.isValid = false) ∧
    ((e ≠ 0 ∨ c = 0) →
       readSensor1 s fc now (.measurement e c t h)
         = { reading := s.lastReading1, state := s, failCount := fc
             recoveryInvoked := false }) := by
  refine ⟨fun hf => (readSensor1_fails s fc now att hf).1, rfl, fun hf => ?_,
          fun he => ?_⟩
  · rw [(readSensor1_fails freshSensorManager fc now att hf).1]
    rfl
  · simp only [readSensor1]
    rw [if_pos he]

/-- Witness for C2: a mux failure on a fresh channel yields an invalid
reading, and a zero-concentration read produces exactly the
device-error fallback outcome. -/
theorem claim_C2_witness :
    (readSensor1 freshSensorManager 0 5 ReadAttempt.muxFail).reading.isValid
        = false ∧
    readSensor1 freshSensorManager 0 5 (ReadAttempt.measurement 0 0 20 50)
      = { reading := freshSensorManager.lastReading1
          state := freshSensorManager, failCount := 0
          recoveryInvoked := false } :=
  ⟨(claim_C2 freshSensorManager 0 5 ReadAttempt.muxFail 0 0 20 50).2.2.1 rfl,
   (claim_C2 freshSensorManager 0 5 (ReadAttempt.measurement 0 0 20 50)
      0 0 20 50).2.2.2 (Or.inr rfl)⟩

/-- **C10** (implicit): on every failed read attempt of any kind, the
channel's moving-average filters and stored last-known-good Reading are
left completely unchanged; the filters receive a sample and the
last-known-good Reading is overwritten only on the success path, after
validation passes. -/
theorem claim_C10 (s : SensorManagerState) (fc now : ℕ) (att : ReadAttempt)
    (e c : ℕ) (t h : ℚ) :
    (attemptFails att = true → (readSensor1 s fc now att).state = s) ∧
    (e = 0 → c ≠ 0 → validateReading t h c = true →
       readSensor1 s fc now (.measurement e c t h)
         = { reading := { temperature := (s.tempFilter1.add t).getAverage
                          humidity := (s.humidityFilter1.add h).getAverage
                          co2 := c, isValid := true, timestamp := now }
             state := { tempFilter1 := s.tempFilter1.add t
                        humidityFilter1 := s.humidityFilter1.add h
                        lastReading1 :=
                          { temperature := (s.tempFilter1.add t).getAverage
                            humidity := (s.humidityFilter1.add h).getAverage
                            co2 := c, isValid := true, timestamp := now } }
             failCount := 0, recoveryInvoked := false }) := by
  refine ⟨fun hf => (readSensor1_fails s fc now att hf).2, fun he hc hv => ?_⟩
  simp only [readSensor1]
  rw [if_neg (by simp [he, hc]), if_neg (by simp [hv])]

/-- Witness for C10: a wire-timeout read leaves the fresh channel state
unchanged, and a successful in-range read (25 °C, 80 %, 1200 ppm) pushes
the sample into both filters and overwrites the last-known-good
reading. -/
theorem claim_C10_witness :
    (readSensor1 freshSensorManager 0 7 ReadAttempt.wireTimeout).state
        = freshSensorManager ∧
    readSensor1 freshSensorManager 0 7 (ReadAttempt.measurement 0 1200 25 80)
      = { reading := { temperature :=
                         (freshSensorManager.tempFilter1.add 25).getAverage
                       humidity :=
                         (freshSensorManager.humidityFilter1.add 80).getAverage
                       co2 := 1200, isValid := true, timestamp := 7 }
          state := { tempFilter1 := freshSensorManager.tempFilter1.add 25
                     humidityFilter1 := freshSensorManager.humidityFilter1.add 80
                     lastReading1 :=
                       { temperature :=
                           (freshSensorManager.tempFilter1.add 25).getAverage
                         humidity :=
                           (freshSensorManager.humidityFilter1.add 80).getAverage
                         co2 := 1200, isValid := true, timestamp := 7 } }
          failCount := 0, recoveryInvoked := false } :=
  ⟨(claim_C10 freshSensorManager 0 7 ReadAttempt.wireTimeout 0 0 0 0).1 rfl,
   (claim_C10 freshSensorManager 0 7 (ReadAttempt.measurement 0 1200 25 80)
      0 1200 25 80).2 rfl (by omega)
      ((validateReading_iff 25 80 1200).mpr (by norm_num))⟩

/-- Counterexample to **C5** as stated: a read failing with a device
error code (`error = 1`, in-range values) is a failed read, yet the
shared failure counter is left at 0 — it is not incremented. -/
theorem claim_C5_counterexample :
    attemptFails (ReadAttempt.measurement 1 1000 20 50) = true ∧
    (readSensor1 freshSensorManager 0 0
        (ReadAttempt.measurement 1 1000 20 50)).reading.isValid = false ∧
    (readSensor1 freshSensorManager 0 0
        (ReadAttempt.measurement 1 1000 20 50)).failCount = 0 := by
  refine ⟨by decide, ?_, ?_⟩ <;> rfl

/-- **C5 (amended)**: the shared failure counter is reset to zero on
every successful validated read; it is incremented on every failed
channel-select and on every bus-timeout read, while device-error,
zero-concentration and out-of-range reads leave it unchanged; upon
reaching the threshold `I2C_RECOVERY_RETRIES = 3` the recovery procedure
is invoked exactly once and the counter resets to zero immediately,
regardless of recovery's outcome.  Concretely, 3 consecutive mux
selection failures invoke recovery exactly once, on the 3rd failure. -/
theorem claim_C5_amended (s : SensorManagerState) (fc now : ℕ)
    (e c : ℕ) (t h : ℚ) :
    (e = 0 → c ≠ 0 → validateReading t h c = true →
       (readSensor1 s fc now (.measurement e c t h)).failCount = 0 ∧
       (readSensor1 s fc now (.measurement e c t h)).recoveryInvoked = false) ∧
    (∀ att, (att = ReadAttempt.muxFail ∨ att = ReadAttempt.wireTimeout) →
       ((fc + 1) % 2 ^ 8 ≥ I2C_RECOVERY_RETRIES →
           (readSensor1 s fc now att).failCount = 0 ∧
           (readSensor1 s fc now att).recoveryInvoked = true) ∧
       ((fc + 1) % 2 ^ 8 < I2C_RECOVERY_RETRIES →
           (readSensor1 s fc now att).failCount = (fc + 1) % 2 ^ 8 ∧
           (readSensor1 s fc now att).recoveryInvoked = false)) ∧
    ((e ≠ 0 ∨ c = 0 ∨ validateReading t h c = false) →
       (readSensor1 s fc now (.measurement e c t h)).failCount = fc ∧
       (readSensor1 s fc now (.measurement e c t h)).recoveryInvoked = false) ∧
    (let r1 := readSensor1 s 0 now ReadAttempt.muxFail
     let r2 := readSensor1 r1.state r1.failCount now ReadAttempt.muxFail
     let r3 := readSensor1 r2.state r2.failCount now ReadAttempt.muxFail
     r1.failCount = 1 ∧ r1.recoveryInvoked = false ∧
     r2.failCount = 2 ∧ r2.recoveryInvoked = false ∧
     r3.failCount = 0 ∧ r3.recoveryInvoked = true) := by
  refine ⟨fun he hc hv => ?_, fun att hatt => ⟨fun hth => ?_, fun hth => ?_⟩,
          fun hfail => ?_, ?_⟩
  · simp only [readSensor1]
    rw [if_neg (by simp [he, hc]), if_neg (by simp [hv])]
    exact ⟨rfl, rfl⟩
  · rcases hatt with rfl | rfl <;>
      · simp only [readSensor1, bumpFailCount]
        rw [if_pos hth]
        exact ⟨rfl, rfl⟩
  · rcases hatt with rfl | rfl <;>
      · simp only [readSensor1, bumpFailCount]
        rw [if_neg (by omega)]
        exact ⟨rfl, rfl⟩
  · simp only [readSensor1]
    split_ifs with h1 h2
    · exact ⟨rfl, rfl⟩
    · exact ⟨rfl, rfl⟩
    · exfalso
      push_neg at h1
      rcases hfail with hf | hf | hf
      · exact hf h1.1
      · exact h1.2 hf
      · exact h2 hf
  · norm_num [readSensor1, bumpFailCount, I2C_RECOVERY_RETRIES]

/-- Witness for C5 (amended): with the counter at 2, a third consecutive
mux failure reaches the threshold — recovery is invoked and the counter
resets to 0. -/
theorem claim_C5_amended_witness :
    (readSensor1 freshSensorManager 2 0 ReadAttempt.muxFail).failCount = 0 ∧
    (readSensor1 freshSensorManager 2 0 ReadAttempt.muxFail).recoveryInvoked
      = true :=
  ((claim_C5_amended freshSensorManager 2 0 0 0 0 0).2.1 ReadAttempt.muxFail
      (Or.inl rfl)).1 (by norm_num [I2C_RECOVERY_RETRIES])

/-- The SCL-toggle loop is `sclPulseCount` copies of the pulse block. -/
lemma sclPulsesFrom_eq (sda : ℕ → Bool) (fuel i : ℕ) :
    sclPulsesFrom sda i fuel
      = (List.replicate (sclPulseCount sda i fuel) sclPulseBlock).flatten := by
  induction fuel generalizing i with
  | zero => simp [sclPulsesFrom, sclPulseCount]
  | succ f ih =>
      by_cases hsda : sda i
      · simp [sclPulsesFrom, sclPulseCount, hsda]
      · simp [sclPulsesFrom, sclPulseCount, hsda, ih (i + 1),
              List.replicate_succ]

/-- The loop never runs more iterations than its fuel. -/
lemma sclPulseCount_le (sda : ℕ → Bool) (fuel i : ℕ) :
    sclPulseCount sda i fuel ≤ fuel := by
  induction fuel generalizing i with
  | zero => simp [sclPulseCount]
  | succ f ih =>
      simp only [sclPulseCount]
      split
      · omega
      · have := ih (i + 1); omega

/-- With positive fuel the loop always performs at least one pulse. -/
lemma sclPulseCount_pos (sda : ℕ → Bool) (fuel i : ℕ) (h : 0 < fuel) :
    1 ≤ sclPulseCount sda i fuel := by
  cases fuel with
  | zero => omega
  | succ f =>
      simp only [sclPulseCount]
      split <;> omega

/-- Every SDA read before the last pulse came back low. -/
lemma sclPulseCount_prefix_false (sda : ℕ → Bool) (fuel i : ℕ) :
    ∀ j, j + 1 < sclPulseCount sda i fuel → sda (i + j) = false := by
  induction fuel generalizing i with
  | zero => intro j hj; simp [sclPulseCount] at hj
  | succ f ih =>
      intro j hj
      simp only [sclPulseCount] at hj
      by_cases hsda : sda i
      · rw [if_pos hsda] at hj; omega
      · rw [if_neg hsda] at hj
        cases j with
        | zero =>
            simp only [Nat.add_zero]
            exact Bool.eq_false_iff.mpr hsda
        | succ j' =>
            have hres := ih (i + 1) j' (by omega)
            have harr : i + (j' + 1) = i + 1 + j' := by omega
            rw [harr]
            exact hres

/-- If the loop stopped before exhausting its fuel, the SDA read after
its last pulse came back high. -/
lemma sclPulseCount_early (sda : ℕ → Bool) (fuel i : ℕ)
    (h : sclPulseCount sda i fuel < fuel) :
    sda (i + (sclPulseCount sda i fuel - 1)) = true := by
  induction fuel generalizing i with
  | zero => simp [sclPulseCount] at h
  | succ f ih =>
      by_cases hsda : sda i
      · simp only [sclPulseCount, if_pos hsda]
        simpa using hsda
      · simp only [sclPulseCount, if_neg hsda] at h ⊢
        have h' : sclPulseCount sda (i + 1) f < f := by omega
        have hpos : 1 ≤ sclPulseCount sda (i + 1) f :=
          sclPulseCount_pos sda f (i + 1) (by omega)
        have hres := ih (i + 1) h'
        have harr : i + (sclPulseCount sda (i + 1) f + 1 - 1)
            = i + 1 + (sclPulseCount sda (i + 1) f - 1) := by omega
        rw [harr]
        exact hres

/-- **C8**: every invocation of the bus recovery procedure performs, in
this fixed order: disable the bus driver; configure SCL as output and
SDA as input with pull-up; pulse SCL low then high at most 9 times,
checking SDA after each pulse and stopping early as soon as it reads
high; drive a STOP condition as SDA low, then SCL high, then SDA high
with short settle delays; reinitialize the bus driver and re-arm the
communication timeout; then wait about 100 ms before returning. -/
theorem claim_C8 (sda : ℕ → Bool) :
    (recoverI2CBus sda
      = [HwOp.wireEnd, HwOp.setPinMode HARDWARE_SCL_PIN PinMode.output,
         HwOp.setPinMode HARDWARE_SDA_PIN PinMode.inputPullup]
        ++ (List.replicate (sclPulseCount sda 0 9) sclPulseBlock).flatten
        ++ [HwOp.setPinMode HARDWARE_SDA_PIN PinMode.output,
            HwOp.digWrite HARDWARE_SDA_PIN false, HwOp.delayUs 5,
            HwOp.digWrite HARDWARE_SCL_PIN true, HwOp.delayUs 5,
            HwOp.digWrite HARDWARE_SDA_PIN true, HwOp.delayUs 5,
            HwOp.wireBegin, HwOp.setWireTimeout, HwOp.delayMs 100]) ∧
    1 ≤ sclPulseCount sda 0 9 ∧ sclPulseCount sda 0 9 ≤ 9 ∧
    (∀ j, j + 1 < sclPulseCount sda 0 9 → sda j = false) ∧
    (sclPulseCount sda 0 9 < 9 → sda (sclPulseCount sda 0 9 - 1) = true) := by
  refine ⟨?_, sclPulseCount_pos sda 9 0 (by omega), sclPulseCount_le sda 9 0,
          ?_, ?_⟩
  · unfold recoverI2CBus
    rw [sclPulsesFrom_eq]
  · intro j hj
    have hres := sclPulseCount_prefix_false sda 9 0 j hj
    simpa using hres
  · intro hlt
    have hres := sclPulseCount_early sda 9 0 hlt
    simpa using hres

/-- Witness for C8 with SDA released after the 3rd pulse: the loop stops
early, and the SDA level read after its final pulse is high. -/
theorem claim_C8_witness :
    (fun i => decide (2 ≤ i)) (sclPulseCount (fun i => decide (2 ≤ i)) 0 9 - 1)
      = true :=
  (claim_C8 (fun i => decide (2 ≤ i))).2.2.2.2 (by decide)

/-- **C3**: moving-average filter correctness: for every capacity
`N ≥ 1` and every sequence of `k` insertions via `add`, `getAverage`
afterwards equals the arithmetic mean of all `k` inserted values when
`k ≤ N` and the mean of exactly the last `N` inserted values when
`k > N`; on a freshly constructed or `reset` filter, `getAverage`
returns exactly 0 (with no division); and after every `add` the running
sum equals the sum of the buffer slots. -/
theorem claim_C3 (N : ℕ) (hN : 1 ≤ N) (xs : List ℚ) (f : MovingAverageFilter) :
    (xs.length ≤ N →
       ((MovingAverageFilter.mk0 N).addAll xs).getAverage
         = if xs.length = 0 then 0 else xs.sum / (xs.length : ℚ)) ∧
    (N < xs.length →
       ((MovingAverageFilter.mk0 N).addAll xs).getAverage
         = (xs.drop (xs.length - N)).sum / (N : ℚ)) ∧
    (MovingAverageFilter.mk0 N).getAverage = 0 ∧
    f.reset.getAverage = 0 ∧
    ((MovingAverageFilter.mk0 N).addAll xs).sum
      = ((MovingAverageFilter.mk0 N).addAll xs).buffer.sum := by
  have hN0 : 0 < N := hN
  refine ⟨?_, ?_, rfl, rfl, MovingAverageFilter.addAll_sum_buffer hN0 xs⟩
  · intro hle
    rw [MovingAverageFilter.addAll_getAverage hN0]
    by_cases hx : xs.length = 0
    · rw [if_pos hx, if_pos hx]
    · rw [if_neg hx, if_neg hx]
      have h1 : xs.length - N = 0 := by omega
      have h2 : min xs.length N = xs.length := by omega
      rw [h1, h2, List.drop_zero]
  · intro hgt
    rw [MovingAverageFilter.addAll_getAverage hN0, if_neg (by omega)]
    have h2 : min xs.length N = N := by omega
    rw [h2]

/-- Witness for C3: capacity 2, samples 1, 2, 3 — the average is the
mean of the last two samples, 5/2. -/
theorem claim_C3_witness :
    ((MovingAverageFilter.mk0 2).addAll [1, 2, 3]).getAverage = 5 / 2 := by
  have h := (claim_C3 2 (by omega) [1, 2, 3] (MovingAverageFilter.mk0 2)).2.1
    (by simp)
  rw [h]
  norm_num

end MashIoT
